import Mathlib

/-!
Verification development for the mashumaro serialization code generator
(`mashumaro/serializer/base/metaprogramming.py`, `mashumaro/types.py`).

The generator compiles, per dataclass, a `to_dict` routine and a `from_dict`
routine.  We shallowly embed the generated routines as Lean functions:
`packExpr` / `unpackExpr` mirror `CodeBuilder._pack_value` /
`CodeBuilder._unpack_field_value` (each Python branch becomes a match arm, in
source order), and `buildToDict` / `buildFromDict` mirror
`CodeBuilder.add_to_dict` / `CodeBuilder.add_from_dict` (the per-field
MISSING/None/default/try-except scaffolding of the generated code).

Modelling conventions:
 - Python runtime objects (both typed instances and the generic trees) live in
   one inductive type `Obj`, since Python has a single object universe.
 - Strings produced by injective stdlib encoders whose parsers we do not
   re-implement (base64, ISO-8601, `str` of `uuid.UUID`) are modelled
   semantically: a dedicated `Obj` constructor carries the encoded datum
   (e.g. `Obj.isoDT k` stands for the ISO string of the datetime token `k`).
 - `datetime`, `date`, `time` and `uuid` values are opaque tokens (`Nat`);
   `float` is modelled as an exact rational (no rounding is relevant to any
   statement below).
 - Exceptions become an `Except` error monad.  Python's implicit exception
   chaining (an exception raised inside an `except` block records the caught
   exception as context) is modelled by the `ctx` argument of
   `PyErr.invalidFieldValue`.
 - The field-metadata driven datetime parsers (the `deserialize` metadata
   branch of `_unpack_field_value`) are not modelled; no statement below
   concerns them.
-/

namespace Mashumaro

/-- A Python runtime object: covers both typed instances and the generic
primitive trees that `to_dict` produces and `from_dict` consumes. -/
inductive Obj where
  | none
  | int (n : Int)
  | float (q : Rat)
  | bool (b : Bool)
  | str (s : String)
  | bytes (bs : List Nat)
  | bytearray (bs : List Nat)
  | b64Str (bs : List Nat)
  | list (xs : List Obj)
  | deque (xs : List Obj)
  | tuple (xs : List Obj)
  | set (xs : List Obj)
  | frozenset (xs : List Obj)
  | dict (kvs : List (Obj × Obj))
  | chainmap (ms : List (List (Obj × Obj)))
  | enumV (ename : String) (n : Int)
  | path (s : String)
  | datetime (k : Nat)
  | date (k : Nat)
  | time (k : Nat)
  | isoDT (k : Nat)
  | isoD (k : Nat)
  | isoT (k : Nat)
  | timedelta (secs : Rat)
  | timezone (nm : String)
  | uuidV (k : Nat)
  | uuidStr (k : Nat)
  | decimalV (m e : Int)
  | decStr (m e : Int)
  | fraction (p q : Int)
  | fracStr (p q : Int)
  | inst (cname : String) (fields : List (String × Obj))

/-- Python exceptions observable from the generated routines.
`invalidFieldValue` carries the implicitly chained context exception
(`raise` inside an `except` block sets it). -/
inductive PyErr where
  | missingField (fname : String) (ftypeName : String) (cls : String)
  | invalidFieldValue (fname : String) (ftypeName : String) (raw : Obj)
      (cls : String) (ctx : Option PyErr)
  | valueError (msg : String)
  | typeError (msg : String)
  | attributeError

/-- Compile-time errors raised while generating conversion code
(`UnserializableField` names the field, its declared type and the owner;
`UnserializableDataError` carries only a message). -/
inductive CompileError where
  | unserializableField (fname : String) (ftypeName : String)
      (parent : String) (msg : Option String)
  | unserializableData (msg : String)

/-- Does the compile error name the offending field (and its type and owner)?
True exactly for `UnserializableField`. -/
def CompileError.namesField : CompileError → Bool
  | .unserializableField _ _ _ _ => true
  | .unserializableData _ => false

/-- The option flags of the generated routines
(`use_bytes`, `use_enum`, `use_datetime`). -/
structure Opts where
  useBytes : Bool
  useEnum : Bool
  useDatetime : Bool

/-- All three options default to `False`. -/
def defOpts : Opts := ⟨false, false, false⟩

/-- A field's collected default: `MISSING`, a plain default value, or a
default factory (modelled by the value it produces). -/
inductive DefaultV where
  | missing
  | val (v : Obj)
  | factory (produces : Obj)

/-- The shape of a field's declared type, one constructor per dispatch branch
of `_pack_value` / `_unpack_field_value`.  `bare*` constructors are the
unparametrized container types (`list`, `dict`, ...); `tUnion` keeps the
Python `__args__` list, with `Optional[T]` arriving as `tUnion [T, tNoneT]`.
User hooks (`SerializableType._serialize` / `_deserialize`, and
`SerializationStrategy.serialize` / `deserialize`) are opaque functions. -/
inductive TypeDesc where
  | tAny
  | tInt
  | tFloat
  | tBool
  | tNoneT
  | tStr
  | tBytes
  | tBytearray
  | tListT (t : TypeDesc)
  | tDeque (t : TypeDesc)
  | tTuple (t : TypeDesc)
  | tSet (t : TypeDesc)
  | tFrozenset (t : TypeDesc)
  | tDict (k v : TypeDesc)
  | tChainMap (k v : TypeDesc)
  | bareList
  | bareDeque
  | bareTuple
  | bareSet
  | bareFrozenset
  | bareDict
  | bareChainMap
  | tUnion (args : List TypeDesc)
  | tAnyStr
  | tTypeVar
  | tSpecialOther (rep : String)
  | tEnum (ename : String) (vals : List Int)
  | tPath
  | tDatetime
  | tDate
  | tTime
  | tTimedelta
  | tTimezone
  | tUUID
  | tDecimal
  | tFraction
  | tDataclass (cname : String) (fields : List (String × TypeDesc × DefaultV))
  | tSerializable (cname : String)
      (ser : Obj → Except PyErr Obj) (deser : Obj → Except PyErr Obj)
  | tStrategy (sname : String)
      (ser : Obj → Except PyErr Obj) (deser : Obj → Except PyErr Obj)
  | tUnknown (rep : String)

/-- The name interpolated for a field type in generated error raises
(`type_name(ftype)`, and `type_name(ftype.__class__)` when the declared type
is a `SerializationStrategy` instance). -/
def typeName : TypeDesc → String
  | .tAny => "typing.Any"
  | .tInt => "int"
  | .tFloat => "float"
  | .tBool => "bool"
  | .tNoneT => "NoneType"
  | .tStr => "str"
  | .tBytes => "bytes"
  | .tBytearray => "bytearray"
  | .tListT _ => "typing.List"
  | .tDeque _ => "typing.Deque"
  | .tTuple _ => "typing.Tuple"
  | .tSet _ => "typing.Set"
  | .tFrozenset _ => "typing.FrozenSet"
  | .tDict _ _ => "typing.Dict"
  | .tChainMap _ _ => "typing.ChainMap"
  | .bareList => "list"
  | .bareDeque => "collections.deque"
  | .bareTuple => "tuple"
  | .bareSet => "set"
  | .bareFrozenset => "frozenset"
  | .bareDict => "dict"
  | .bareChainMap => "collections.ChainMap"
  | .tUnion _ => "typing.Union"
  | .tAnyStr => "typing.AnyStr"
  | .tTypeVar => "typing.TypeVar"
  | .tSpecialOther rep => rep
  | .tEnum ename _ => ename
  | .tPath => "pathlib.PurePath"
  | .tDatetime => "datetime.datetime"
  | .tDate => "datetime.date"
  | .tTime => "datetime.time"
  | .tTimedelta => "datetime.timedelta"
  | .tTimezone => "datetime.timezone"
  | .tUUID => "uuid.UUID"
  | .tDecimal => "decimal.Decimal"
  | .tFraction => "fractions.Fraction"
  | .tDataclass cname _ => cname
  | .tSerializable cname _ _ => cname
  | .tStrategy sname _ _ => sname
  | .tUnknown rep => rep

/-- Association-list lookup with string keys (Python `dict` lookup). -/
def lookupA {α : Type} : List (String × α) → String → Option α
  | [], _ => Option.none
  | (k, v) :: rest, key => if k = key then some v else lookupA rest key

/-- Association-list update with Python `dict` semantics: an existing key
keeps its position, a new key is appended. -/
def setk {α : Type} : List (String × α) → String → α → List (String × α)
  | [], k, v => [(k, v)]
  | (k0, v0) :: rest, k, v =>
      if k0 = k then (k0, v) :: rest else (k0, v0) :: setk rest k v

/-! ### Builtin leaf conversions used by the generated expressions -/

/-- The builtin `int(value)` call emitted for `int` fields, on the argument
shapes it can receive here (no float-string parsing; `int` of an unsuitable
object raises). -/
def pyInt : Obj → Except PyErr Obj
  | .int n => .ok (.int n)
  | .bool b => .ok (.int (if b then 1 else 0))
  | .float q => .ok (.int (q.num.tdiv q.den))
  | .str s =>
      match s.toInt? with
      | some n => .ok (.int n)
      | Option.none => .error (.valueError ("invalid literal for int: " ++ s))
  | _ => .error (.typeError "int() argument is not a number or string")

/-- The builtin `float(value)` call emitted for `float` fields. -/
def pyFloat : Obj → Except PyErr Obj
  | .float q => .ok (.float q)
  | .int n => .ok (.float (n : Rat))
  | .bool b => .ok (.float (if b then (1 : Rat) else 0))
  | _ => .error (.typeError "float() argument is not a number")

/-- Elements of an iterable (`for value in value` in a generated
comprehension); non-iterable objects raise. -/
def elemsOf : Obj → Option (List Obj)
  | .list xs => some xs
  | .deque xs => some xs
  | .tuple xs => some xs
  | .set xs => some xs
  | .frozenset xs => some xs
  | _ => Option.none

/-- Evaluate a generated comprehension body over a list of elements;
the first raising element aborts, as in Python. -/
def mapEls (f : Obj → Except PyErr Obj) : List Obj → Except PyErr (List Obj)
  | [] => .ok []
  | x :: xs => do
      let y ← f x
      let ys ← mapEls f xs
      .ok (y :: ys)

/-- Evaluate a generated dict comprehension over key/value pairs. -/
def mapKVs (fk fv : Obj → Except PyErr Obj) :
    List (Obj × Obj) → Except PyErr (List (Obj × Obj))
  | [] => .ok []
  | (k, v) :: kvs => do
      let k2 ← fk k
      let v2 ← fv v
      let rest ← mapKVs fk fv kvs
      .ok ((k2, v2) :: rest)

/-! ### Runtime scaffolding of the generated `to_dict` / `from_dict` -/

/-- A compiled per-field decoder: the field name, its collected default, and
the semantics of the generated per-field block of `from_dict`
(given the looked-up raw value, `Option.none` standing for `MISSING`). -/
structure CF where
  fname : String
  dflt : DefaultV
  step : Opts → Option Obj → Except PyErr (Option Obj)

/-- Semantics of the generated per-field block of `from_dict`
(lines `value = d.get(...)` through the `try/except` wrapper):
a present `None` binds `None`; an absent required field raises
`MissingField`; an absent defaulted field is omitted from `kwargs`; a present
non-`None` value goes through the decode expression, any failure of which is
re-raised as `InvalidFieldValue` with the caught exception chained. -/
def fieldStep (f tn cname : String) (dflt : DefaultV)
    (dec : Opts → Obj → Except PyErr Obj) (o : Opts) (v? : Option Obj) :
    Except PyErr (Option Obj) :=
  match v? with
  | some Obj.none => .ok (some Obj.none)
  | Option.none =>
      match dflt with
      | .missing => .error (.missingField f tn cname)
      | _ => .ok Option.none
  | some raw =>
      match dec o raw with
      | .ok x => .ok (some x)
      | .error e => .error (.invalidFieldValue f tn raw cname (some e))

/-- The argument handed to `from_dict`: a real `dict`, a non-`dict` object
that nevertheless supports `.get` lookup, or an object without `.get`
(on which `d.get(...)` raises `AttributeError`). -/
inductive DIn where
  | dict (kvs : List (String × Obj))
  | objWithGet (kvs : List (String × Obj))
  | objNoGet

/-- `d.get(fname, MISSING)`. -/
def dGet : DIn → String → Except PyErr (Option Obj)
  | .dict kvs, k => .ok (lookupA kvs k)
  | .objWithGet kvs, k => .ok (lookupA kvs k)
  | .objNoGet, _ => .error .attributeError

/-- `isinstance(d, dict)`. -/
def isDictD : DIn → Bool
  | .dict _ => true
  | _ => false

/-- The generated `except AttributeError:` handler of `from_dict`: an
`AttributeError` on a non-`dict` argument becomes the argument-shape
`ValueError` (`raise ... from None`); on a `dict` it is re-raised; every
other exception propagates untouched. -/
def fromDictGuard {α : Type} (cname : String) (d : DIn) :
    Except PyErr α → Except PyErr α
  | .error .attributeError =>
      if isDictD d then .error .attributeError
      else .error (.valueError ("Argument for " ++ cname ++
        ".from_dict method should be a dict instance"))
  | r => r

/-- `kwargs[fname] = value` when the per-field block bound a value, nothing
when the field was omitted. -/
def consEntry (f : String) (r? : Option Obj) (kw : List (String × Obj)) :
    List (String × Obj) :=
  match r? with
  | some v => (f, v) :: kw
  | Option.none => kw

/-- The generated field loop of `from_dict`: look each field up and run its
per-field block, assembling `kwargs` in declaration order. -/
def runFields : List CF → Opts → DIn → Except PyErr (List (String × Obj))
  | [], _, _ => .ok []
  | cf :: rest, o, d => do
      let v? ← dGet d cf.fname
      let r? ← cf.step o v?
      let tail ← runFields rest o d
      .ok (consEntry cf.fname r? tail)

/-- The value the constructor supplies for a field absent from `kwargs`:
its default, or its default factory's result; a required field without a
`kwargs` entry is a `TypeError` (unreachable from `from_dict`). -/
def ctorDefault (f : String) : DefaultV → Except PyErr Obj
  | .val v => Except.ok v
  | .factory v => Except.ok v
  | .missing =>
      Except.error (.typeError ("missing required argument: " ++ f))

/-- The value bound to one constructor parameter of `cls(**kwargs)`. -/
def kwEntry (kw : List (String × Obj)) (f : String) (dflt : DefaultV) :
    Except PyErr Obj :=
  match lookupA kw f with
  | some v => Except.ok v
  | Option.none => ctorDefault f dflt

/-- `cls(**kwargs)`: each field takes its `kwargs` entry if present,
otherwise its constructor-supplied default. -/
def mkInstFields (kw : List (String × Obj)) :
    List (String × TypeDesc × DefaultV) → Except PyErr (List (String × Obj))
  | [] => .ok []
  | (f, _, dflt) :: rest =>
      (kwEntry kw f dflt) >>= (fun v =>
        (mkInstFields kw rest) >>= (fun tail => .ok ((f, v) :: tail)))

/-- `return cls(**kwargs)`. -/
def mkInstance (cname : String) (fields : List (String × TypeDesc × DefaultV))
    (kw : List (String × Obj)) : Except PyErr Obj :=
  (mkInstFields kw fields).map (Obj.inst cname)

/-- Semantics of a compiled `from_dict`: run the field loop under the
`AttributeError` guard, then construct the instance.  No partially
constructed instance can be returned: any error aborts before `cls(**kwargs)`
runs. -/
def fromDictSem (cname : String) (fields : List (String × TypeDesc × DefaultV))
    (steps : List CF) (o : Opts) (d : DIn) : Except PyErr Obj :=
  match fromDictGuard cname d (runFields steps o d) with
  | .error e => .error e
  | .ok kw => mkInstance cname fields kw

/-- A nested `X.from_dict(value, ...)` call receives an arbitrary tree node:
a string-keyed mapping acts as the `dict`, anything else (list, number,
string, ...) has no `.get` method. -/
def treeToDIn : Obj → DIn
  | .dict kvs => .dict (kvs.filterMap (fun p =>
      match p.1 with
      | .str s => some (s, p.2)
      | _ => Option.none))
  | _ => .objNoGet

/-- The generated field loop of `to_dict`: read each attribute, emit `None`
for `None`, else apply the field's encode expression. -/
def toDictGo (fns : List (String × (Opts → Obj → Except PyErr Obj)))
    (fvals : List (String × Obj)) (o : Opts) :
    Except PyErr (List (Obj × Obj)) :=
  match fns with
  | [] => .ok []
  | (f, fn) :: rest =>
      match lookupA fvals f with
      | Option.none => .error .attributeError
      | some Obj.none =>
          (toDictGo rest fvals o).map (fun tl => (Obj.str f, Obj.none) :: tl)
      | some v => do
          let t ← fn o v
          let tl ← toDictGo rest fvals o
          .ok ((Obj.str f, t) :: tl)

/-- Semantics of a compiled `to_dict` (also the delegate called for a
nested-dataclass field): assemble the string-keyed `kwargs` mapping. -/
def runToDict (fns : List (String × (Opts → Obj → Except PyErr Obj)))
    (o : Opts) (v : Obj) : Except PyErr Obj :=
  match v with
  | .inst _ fvals => (toDictGo fns fvals o).map Obj.dict
  | _ => .error .attributeError

/-- `is_dataclass(args[0])` for mapping/chained-mapping key types. -/
def isDataclassT : TypeDesc → Bool
  | .tDataclass _ _ => true
  | _ => false

/-- A generated per-element comprehension collected into a container built by
`mk` (`[...]`, `tuple([...])`, `set([...])`, ...). -/
def seqInto (mk : List Obj → Obj) (fe : Obj → Except PyErr Obj) (v : Obj) :
    Except PyErr Obj :=
  match elemsOf v with
  | some xs => (mapEls fe xs).map mk
  | Option.none => .error (.typeError "object is not iterable")

/-- `value.isoformat()` — the ISO-8601 rendering of a datetime-like object,
modelled semantically. -/
def isoformatFn : Obj → Except PyErr Obj
  | .datetime k => .ok (.isoDT k)
  | .date k => .ok (.isoD k)
  | .time k => .ok (.isoT k)
  | _ => .error .attributeError

/-- `value if use_bytes else encodebytes(value).decode()`. -/
def packBytesFn (o : Opts) (v : Obj) : Except PyErr Obj :=
  if o.useBytes then .ok v
  else
    match v with
    | .bytes bs => .ok (.b64Str bs)
    | .bytearray bs => .ok (.b64Str bs)
    | _ => .error (.typeError "argument should be a bytes-like object")

/-- `value if use_bytes else decodebytes(value.encode())` for a `bytes`
field.  A textual base64 payload is modelled semantically by `Obj.b64Str`. -/
def unpackBytesFn (o : Opts) (v : Obj) : Except PyErr Obj :=
  if o.useBytes then .ok v
  else
    match v with
    | .b64Str bs => .ok (.bytes bs)
    | _ => .error .attributeError

/-- `bytearray(value if use_bytes else decodebytes(value.encode()))`. -/
def unpackBytearrayFn (o : Opts) (v : Obj) : Except PyErr Obj :=
  if o.useBytes then
    match v with
    | .bytes bs => .ok (.bytearray bs)
    | .bytearray bs => .ok (.bytearray bs)
    | _ => .error (.typeError "cannot convert to bytearray")
  else
    match v with
    | .b64Str bs => .ok (.bytearray bs)
    | _ => .error .attributeError

/-- Per-layer packing of `ChainMap.maps` into a list of plain dicts. -/
def packChainGo (fk fv : Obj → Except PyErr Obj) :
    List (List (Obj × Obj)) → Except PyErr (List Obj)
  | [] => .ok []
  | m :: ms => do
      let d ← (mapKVs fk fv m).map Obj.dict
      let rest ← packChainGo fk fv ms
      .ok (d :: rest)

/-- Rebuilding `collections.ChainMap(*[{...} for m in value])`: each layer of
the incoming sequence must be a mapping. -/
def unpackChainGo (fk fv : Obj → Except PyErr Obj) :
    List Obj → Except PyErr (List (List (Obj × Obj)))
  | [] => .ok []
  | m :: ms =>
      match m with
      | .dict kvs => do
          let layer ← mapKVs fk fv kvs
          let rest ← unpackChainGo fk fv ms
          .ok (layer :: rest)
      | _ => .error (.typeError "layer is not a mapping")

/-- Modelled from the spec: `parse_timezone` lives in
`mashumaro/serializer/base/helpers.py`, which is not among the provided
sources; per the spec's dispatch table a timezone is encoded as its name
string and decoded by reconstructing it from that name. -/
def parseTimezone : Obj → Except PyErr Obj
  | .str nm => .ok (.timezone nm)
  | _ => .error (.valueError "not a timezone name")

/-- `EnumName(value)` — reconstruct an enum member from its underlying
value; a non-member value raises `ValueError`. -/
def enumCall (ename : String) (vals : List Int) : Obj → Except PyErr Obj
  | .int n =>
      if vals.contains n then .ok (.enumV ename n)
      else .error (.valueError ("is not a valid " ++ ename))
  | _ => .error (.valueError ("is not a valid " ++ ename))

mutual

/-- `CodeBuilder._pack_value` (metaprogramming.py lines 281-425): map a
field's type descriptor to the semantics of its generated encode expression,
or raise the corresponding compile-time unserializable error.  Match arms
follow the source's branch order. -/
def packExpr (fname : String) (t : TypeDesc) (parent : String) :
    Except CompileError (Opts → Obj → Except PyErr Obj) :=
  match t with
  | .tDataclass cname flds =>
      (packFields cname flds).map (fun fns => fun o v => runToDict fns o v)
  | .tSerializable _ ser _ => .ok (fun _ v => ser v)
  | .tStrategy _ ser _ => .ok (fun _ v => ser v)
  | .tAny => .ok (fun _ v => .ok v)
  | .tUnion args =>
      match args with
      | [a, .tNoneT] => packExpr fname a parent
      | _ => .error (.unserializableData
          "Unions are not supported by mashumaro")
  | .tAnyStr => .error (.unserializableData
      "AnyStr is not supported by mashumaro")
  | .tTypeVar => .error (.unserializableData
      "TypeVars are not supported by mashumaro")
  | .tSpecialOther rep => .error (.unserializableData
      (rep ++ " as a field type is not supported by mashumaro"))
  | .tListT a =>
      (packExpr fname a parent).map (fun fe => fun o v =>
        seqInto Obj.list (fe o) v)
  | .tDeque a =>
      (packExpr fname a parent).map (fun fe => fun o v =>
        seqInto Obj.list (fe o) v)
  | .tTuple a =>
      (packExpr fname a parent).map (fun fe => fun o v =>
        seqInto Obj.list (fe o) v)
  | .tSet a =>
      (packExpr fname a parent).map (fun fe => fun o v =>
        seqInto Obj.list (fe o) v)
  | .tFrozenset a =>
      (packExpr fname a parent).map (fun fe => fun o v =>
        seqInto Obj.list (fe o) v)
  | .bareList => .error (.unserializableField fname "list" parent
      (some "Use typing.List[T] instead"))
  | .bareDeque => .error (.unserializableField fname "collections.deque"
      parent (some "Use typing.Deque[T] instead"))
  | .bareTuple => .error (.unserializableField fname "tuple" parent
      (some "Use typing.Tuple[T] instead"))
  | .bareSet => .error (.unserializableField fname "set" parent
      (some "Use typing.Set[T] instead"))
  | .bareFrozenset => .error (.unserializableField fname "frozenset" parent
      (some "Use typing.FrozenSet[T] instead"))
  | .bareChainMap => .error (.unserializableField fname "collections.ChainMap"
      parent (some "Use typing.ChainMap[KT,VT] instead"))
  | .tChainMap k v =>
      if isDataclassT k then
        .error (.unserializableData
          "ChainMaps with dataclasses as keys are not supported by mashumaro")
      else do
        let fk ← packExpr fname k parent
        let fv ← packExpr fname v parent
        .ok (fun o obj =>
          match obj with
          | .chainmap ms => (packChainGo (fk o) (fv o) ms).map Obj.list
          | _ => .error .attributeError)
  | .bareDict => .error (.unserializableField fname "dict" parent
      (some "Use typing.Dict[KT,VT] or Mapping[KT,VT] instead"))
  | .tDict k v =>
      if isDataclassT k then
        .error (.unserializableData
          "Mappings with dataclasses as keys are not supported by mashumaro")
      else do
        let fk ← packExpr fname k parent
        let fv ← packExpr fname v parent
        .ok (fun o obj =>
          match obj with
          | .dict kvs => (mapKVs (fk o) (fv o) kvs).map Obj.dict
          | _ => .error .attributeError)
  | .tBytes => .ok packBytesFn
  | .tBytearray => .ok packBytesFn
  | .tStr => .ok (fun _ v => .ok v)
  | .tPath => .ok (fun _ v =>
      match v with
      | .path s => .ok (.str s)
      | _ => .error .attributeError)
  | .tEnum _ _ => .ok (fun o v =>
      if o.useEnum then .ok v
      else
        match v with
        | .enumV _ n => .ok (.int n)
        | _ => .error .attributeError)
  | .tInt => .ok (fun _ v => pyInt v)
  | .tFloat => .ok (fun _ v => pyFloat v)
  | .tBool => .ok (fun _ v => .ok v)
  | .tNoneT => .ok (fun _ v => .ok v)
  | .tDatetime => .ok (fun o v => if o.useDatetime then .ok v else isoformatFn v)
  | .tDate => .ok (fun o v => if o.useDatetime then .ok v else isoformatFn v)
  | .tTime => .ok (fun o v => if o.useDatetime then .ok v else isoformatFn v)
  | .tTimedelta => .ok (fun _ v =>
      match v with
      | .timedelta s => .ok (.float s)
      | _ => .error .attributeError)
  | .tTimezone => .ok (fun _ v =>
      match v with
      | .timezone nm => .ok (.str nm)
      | _ => .error .attributeError)
  | .tUUID => .ok (fun _ v =>
      match v with
      | .uuidV k => .ok (.uuidStr k)
      | _ => .error (.typeError "not a UUID"))
  | .tDecimal => .ok (fun _ v =>
      match v with
      | .decimalV m e => .ok (.decStr m e)
      | _ => .error (.typeError "not a Decimal"))
  | .tFraction => .ok (fun _ v =>
      match v with
      | .fraction p q => .ok (.fracStr p q)
      | _ => .error (.typeError "not a Fraction"))
  | .tUnknown rep =>
      .error (.unserializableField fname rep parent Option.none)

/-- The field loop of `CodeBuilder.add_to_dict` (lines 259-279) on the
compile side: build each field's encode expression in declaration order,
aborting on the first unserializable field. -/
def packFields (cname : String) :
    List (String × TypeDesc × DefaultV) →
    Except CompileError (List (String × (Opts → Obj → Except PyErr Obj)))
  | [] => .ok []
  | (f, t, _) :: rest => do
      let fn ← packExpr f t cname
      let fns ← packFields cname rest
      .ok ((f, fn) :: fns)

end

mutual

/-- `CodeBuilder._unpack_field_value` (metaprogramming.py lines 427-665):
map a field's type descriptor to the semantics of its generated decode
expression, or raise the corresponding compile-time unserializable error.
Match arms follow the source's branch order; the metadata-driven datetime
parser branch is not modelled. -/
def unpackExpr (fname : String) (t : TypeDesc) (parent : String) :
    Except CompileError (Opts → Obj → Except PyErr Obj) :=
  match t with
  | .tDataclass cname flds => do
      let steps ← unpackFields cname flds
      .ok (fun o tr => fromDictSem cname flds steps o (treeToDIn tr))
  | .tSerializable _ _ deser => .ok (fun _ tr => deser tr)
  | .tStrategy _ _ deser => .ok (fun _ tr => deser tr)
  | .tAny => .ok (fun _ tr => .ok tr)
  | .tUnion args =>
      match args with
      | [a, .tNoneT] => unpackExpr fname a parent
      | _ => .error (.unserializableData
          "Unions are not supported by mashumaro")
  | .tAnyStr => .error (.unserializableData
      "AnyStr is not supported by mashumaro")
  | .tTypeVar => .error (.unserializableData
      "TypeVars are not supported by mashumaro")
  | .tSpecialOther rep => .error (.unserializableData
      (rep ++ " as a field type is not supported by mashumaro"))
  | .tListT a =>
      (unpackExpr fname a parent).map (fun fe => fun o tr =>
        seqInto Obj.list (fe o) tr)
  | .bareList => .error (.unserializableField fname "list" parent
      (some "Use typing.List[T] instead"))
  | .tDeque a =>
      (unpackExpr fname a parent).map (fun fe => fun o tr =>
        seqInto Obj.deque (fe o) tr)
  | .bareDeque => .error (.unserializableField fname "collections.deque"
      parent (some "Use typing.Deque[T] instead"))
  | .tTuple a =>
      (unpackExpr fname a parent).map (fun fe => fun o tr =>
        seqInto Obj.tuple (fe o) tr)
  | .bareTuple => .error (.unserializableField fname "tuple" parent
      (some "Use typing.Tuple[T] instead"))
  | .tFrozenset a =>
      (unpackExpr fname a parent).map (fun fe => fun o tr =>
        seqInto Obj.frozenset (fe o) tr)
  | .bareFrozenset => .error (.unserializableField fname "frozenset" parent
      (some "Use typing.FrozenSet[T] instead"))
  | .tSet a =>
      (unpackExpr fname a parent).map (fun fe => fun o tr =>
        seqInto Obj.set (fe o) tr)
  | .bareSet => .error (.unserializableField fname "set" parent
      (some "Use typing.Set[T] instead"))
  | .bareChainMap => .error (.unserializableField fname "collections.ChainMap"
      parent (some "Use typing.ChainMap[KT,VT] instead"))
  | .tChainMap k v =>
      if isDataclassT k then
        .error (.unserializableData
          "ChainMaps with dataclasses as keys are not supported by mashumaro")
      else do
        let fk ← unpackExpr fname k parent
        let fv ← unpackExpr fname v parent
        .ok (fun o tr =>
          match elemsOf tr with
          | some ms => (unpackChainGo (fk o) (fv o) ms).map Obj.chainmap
          | Option.none => .error (.typeError "object is not iterable"))
  | .bareDict => .error (.unserializableField fname "dict" parent
      (some "Use typing.Dict[KT,VT] or Mapping[KT,VT] instead"))
  | .tDict k v =>
      if isDataclassT k then
        .error (.unserializableData
          "Mappings with dataclasses as keys are not supported by mashumaro")
      else do
        let fk ← unpackExpr fname k parent
        let fv ← unpackExpr fname v parent
        .ok (fun o tr =>
          match tr with
          | .dict kvs => (mapKVs (fk o) (fv o) kvs).map Obj.dict
          | _ => .error .attributeError)
  | .tBytes => .ok unpackBytesFn
  | .tBytearray => .ok unpackBytearrayFn
  | .tStr => .ok (fun _ tr => .ok tr)
  | .tPath => .ok (fun _ tr =>
      match tr with
      | .str s => .ok (.path s)
      | .path s => .ok (.path s)
      | _ => .error (.typeError "argument should be a str or an os.PathLike"))
  | .tEnum ename vals => .ok (fun o tr =>
      if o.useEnum then .ok tr else enumCall ename vals tr)
  | .tInt => .ok (fun _ tr => pyInt tr)
  | .tFloat => .ok (fun _ tr => pyFloat tr)
  | .tBool => .ok (fun _ tr => .ok tr)
  | .tNoneT => .ok (fun _ tr => .ok tr)
  | .tDatetime => .ok (fun o tr =>
      if o.useDatetime then .ok tr
      else
        match tr with
        | .isoDT k => .ok (.datetime k)
        | _ => .error (.valueError "Invalid isoformat string"))
  | .tDate => .ok (fun o tr =>
      if o.useDatetime then .ok tr
      else
        match tr with
        | .isoD k => .ok (.date k)
        | _ => .error (.valueError "Invalid isoformat string"))
  | .tTime => .ok (fun o tr =>
      if o.useDatetime then .ok tr
      else
        match tr with
        | .isoT k => .ok (.time k)
        | _ => .error (.valueError "Invalid isoformat string"))
  | .tTimedelta => .ok (fun _ tr =>
      match tr with
      | .float q => .ok (.timedelta q)
      | .int n => .ok (.timedelta (n : Rat))
      | _ => .error (.typeError "unsupported type for timedelta seconds"))
  | .tTimezone => .ok (fun _ tr => parseTimezone tr)
  | .tUUID => .ok (fun _ tr =>
      match tr with
      | .uuidStr k => .ok (.uuidV k)
      | _ => .error (.typeError "one of the hex, bytes, int arguments must be given"))
  | .tDecimal => .ok (fun _ tr =>
      match tr with
      | .decStr m e => .ok (.decimalV m e)
      | .int n => .ok (.decimalV n 0)
      | _ => .error (.valueError "InvalidOperation"))
  | .tFraction => .ok (fun _ tr =>
      match tr with
      | .fracStr p q => .ok (.fraction p q)
      | .int n => .ok (.fraction n 1)
      | _ => .error (.valueError "invalid literal for Fraction"))
  | .tUnknown rep =>
      .error (.unserializableField fname rep parent Option.none)

/-- One field of the `CodeBuilder.add_from_dict` loop (lines 170-242) on the
compile side: build the field's decode expression and wrap it in the
generated MISSING/None/default/try-except block (`fieldStep`). -/
def compileField (cname : String) :
    (String × TypeDesc × DefaultV) → Except CompileError CF
  | (f, t, dflt) =>
      (unpackExpr f t cname).map (fun dec =>
        ⟨f, dflt, fun o v? => fieldStep f (typeName t) cname dflt dec o v?⟩)

/-- The field loop of `CodeBuilder.add_from_dict` on the compile side, in
declaration order. -/
def unpackFields (cname : String) :
    List (String × TypeDesc × DefaultV) → Except CompileError (List CF)
  | [] => .ok []
  | fld :: rest => do
      let cf ← compileField cname fld
      let cfs ← unpackFields cname rest
      .ok (cf :: cfs)

end

/-- `CodeBuilder.add_to_dict`: compile the whole `to_dict` routine of a
record type. -/
def buildToDict (cname : String)
    (fields : List (String × TypeDesc × DefaultV)) :
    Except CompileError (Opts → Obj → Except PyErr Obj) :=
  (packFields cname fields).map (fun fns => fun o v => runToDict fns o v)

/-- `CodeBuilder.add_from_dict`: compile the whole `from_dict` routine of a
record type. -/
def buildFromDict (cname : String)
    (fields : List (String × TypeDesc × DefaultV)) :
    Except CompileError (Opts → DIn → Except PyErr Obj) :=
  (unpackFields cname fields).map (fun steps => fun o d =>
    fromDictSem cname fields steps o d)

/-! ### Import bookkeeping (`CodeBuilder.ensure_module_imported`) -/

/-- One emitted line of generated source, by kind: the import guard
(`if '<module>' not in globals():`), the import itself, the `else:` of the
guard, the `global <root>` declaration, or any other generated line. -/
inductive GenLine where
  | guardIf (m : String)
  | importM (m : String)
  | elseL
  | globalDecl (r : String)
  | otherL (s : String)

/-- The mutable generator state relevant to `ensure_module_imported`:
registered module names, declared root globals, emitted lines (with their
indentation in spaces), and the current indentation. -/
structure CB where
  modules : List String
  globs : List String
  lines : List (Nat × GenLine)
  indent : Nat

/-- `CodeBuilder.add_line`. -/
def addLine (b : CB) (l : GenLine) : CB :=
  { b with lines := b.lines ++ [(b.indent, l)] }

/-- Characters of a module path up to the first dot. -/
def rootChars : List Char → List Char
  | [] => []
  | c :: cs => if c = '.' then [] else c :: rootChars cs

/-- `module.split(".")[0]` — the module path's first component. -/
def rootOf (m : String) : String := ⟨rootChars m.data⟩

/-- `CodeBuilder.ensure_module_imported` (metaprogramming.py lines 131-142):
a not-yet-registered module gets the guarded import lines; if additionally
its root module has no `global` declaration yet, the `else:`/`global` lines
are appended and the root recorded. -/
def ensureModuleImported (b : CB) (m : String) : CB :=
  if m ∈ b.modules then b
  else
    let b1 : CB := { b with modules := m :: b.modules }
    let b2 := addLine b1 (.guardIf m)
    let b3 := addLine { b2 with indent := b2.indent + 4 } (.importM m)
    let b4 : CB := { b3 with indent := b3.indent - 4 }
    let r := rootOf m
    if r ∈ b4.globs then b4
    else
      let b5 : CB := { b4 with globs := r :: b4.globs }
      let b6 := addLine b5 .elseL
      let b7 := addLine { b6 with indent := b6.indent + 4 } (.globalDecl r)
      { b7 with indent := b7.indent - 4 }

/-- How many `global <r>` declarations a line list contains. -/
def countGlobal (r : String) : List (Nat × GenLine) → Nat
  | [] => 0
  | (_, GenLine.globalDecl r2) :: rest =>
      (if r2 = r then 1 else 0) + countGlobal r rest
  | _ :: rest => countGlobal r rest

/-- How many import-guard lines for module `m` a line list contains. -/
def countGuard (m : String) : List (Nat × GenLine) → Nat
  | [] => 0
  | (_, GenLine.guardIf m2) :: rest =>
      (if m2 = m then 1 else 0) + countGuard m rest
  | _ :: rest => countGuard m rest

/-! ### Default collection (`CodeBuilder.defaults`) -/

/-- What `self.namespace.get(name, MISSING)` can yield at build time for an
own annotated field: a raw `dataclasses.Field` object (carrying a default or
a default factory), a plain class-attribute default, or nothing. -/
inductive NsVal where
  | fieldObj (dflt : DefaultV)
  | plain (v : Obj)
  | absent

/-- The default recorded for an own annotated name (lines 97-106): a `Field`
contributes its default or factory, a plain attribute is itself the default,
an absent attribute records `MISSING`. -/
def ownDefault : NsVal → DefaultV
  | .fieldObj dv => dv
  | .plain v => .val v
  | .absent => .missing

/-- One ancestor's contribution to the walk (lines 90-96): a dataclass
ancestor writes each of its `__dataclass_fields__` entries (default, or
default factory when the default is `MISSING`) over the accumulator. -/
def ancFold (acc : List (String × DefaultV))
    (a : Bool × List (String × DefaultV)) : List (String × DefaultV) :=
  if a.1 then a.2.foldl (fun m p => setk m p.1 p.2) acc else acc

/-- `CodeBuilder.defaults` (lines 87-107): walk `__mro__[-1:0:-1]` — the
ancestors of the class, oldest first — letting later (more derived)
declarations overwrite earlier ones, then overlay the class's own annotated
names from its namespace.  `mroTail` is `__mro__[1:]` in Python order
(newest first, the class itself excluded); each entry carries its
`is_dataclass` flag and its fields. -/
def defaultsMap (mroTail : List (Bool × List (String × DefaultV)))
    (own : List String) (ns : String → NsVal) : List (String × DefaultV) :=
  let base := mroTail.reverse.foldl ancFold []
  own.foldl (fun acc n => setk acc n (ownDefault (ns n))) base

/-! ### Discriminator tag mode -/

/-- Structural equality of primitive tag values (`None`, ints, bools,
strings) — the shapes a discriminator tag can take. -/
def beqPrim : Obj → Obj → Bool
  | .none, .none => true
  | .int a, .int b => a == b
  | .bool a, .bool b => a == b
  | .str a, .str b => a == b
  | _, _ => false

/-- Read `raw[k]` from a string-keyed mapping node, `None`-safe. -/
def objGetKey (o : Obj) (k : String) : Option Obj :=
  match o with
  | .dict kvs => (kvs.find? (fun p =>
      match p.1 with
      | .str s => s == k
      | _ => false)).map Prod.snd
  | _ => Option.none

/-- Modelled from the spec: one candidate subtype of a tag-mode
discriminated field (§4.4) — the discriminator machinery itself is not among
the provided sources, only its tests are.  A subtype carries its own schema
and the literal value its tag field is assigned to. -/
structure DiscVariant where
  cname : String
  fields : List (String × TypeDesc × DefaultV)
  tagLit : Obj

/-- Modelled from the spec: a tag-mode `Discriminator` — the tag field name,
the candidate subtypes, and the optional `variant_tagger_fn` applied
uniformly to every subtype. -/
structure DiscSpec where
  tagField : String
  variants : List DiscVariant
  taggerFn : Option (String → Obj)

/-- Modelled from the spec: a subtype's tag value — the result of
`variant_tagger_fn(subtype)` when supplied, else the literal assigned to the
tag field on that subtype. -/
def variantTag (ds : DiscSpec) (v : DiscVariant) : Obj :=
  match ds.taggerFn with
  | some f => f v.cname
  | Option.none => v.tagLit

/-- Modelled from the spec: the tag-value → subtype lookup. -/
def findVariant (ds : DiscSpec) (t : Obj) : Option DiscVariant :=
  ds.variants.find? (fun v => beqPrim (variantTag ds v) t)

/-- Run a record type's own compiled `from_dict`
(an unserializable subtype cannot arise for the schemas considered here). -/
def runClassFromDict (cname : String)
    (fields : List (String × TypeDesc × DefaultV)) (o : Opts) (d : DIn) :
    Except PyErr Obj :=
  match buildFromDict cname fields with
  | .ok f => f o d
  | .error _ => .error (.typeError "unserializable subtype")

/-- Modelled from the spec: tag-mode discriminated decoding of a field
(§4.4) — read the tag field's raw value from the input tree; look it up in
the tag map; if it matches no subtype raise `InvalidFieldValue` identifying
the discriminated field; else decode directly via the matched subtype's own
decode routine, with no trial-and-error over other candidates. -/
def discDecodeField (owner fname : String) (ds : DiscSpec) (o : Opts)
    (raw : Obj) : Except PyErr Obj :=
  match objGetKey raw ds.tagField with
  | Option.none =>
      .error (.invalidFieldValue fname "tagged union" raw owner Option.none)
  | some t =>
      match findVariant ds t with
      | Option.none =>
          .error (.invalidFieldValue fname "tagged union" raw owner
            Option.none)
      | some v => runClassFromDict v.cname v.fields o (treeToDIn raw)

/-! ### `RoundedDecimal` (`mashumaro/types.py` lines 47-65) -/

/-- A `decimal.Decimal`, by signed mantissa and exponent (value
`m * 10 ^ e`).  `str` and the `Decimal` string constructor are mutually
inverse injective stdlib codecs on this representation, so the serialized
string is modelled by the triple it denotes. -/
structure PyDecimal where
  m : Int
  e : Int
deriving DecidableEq, Repr

/-- `Decimal.quantize` to target exponent `e2`: rescaling to a smaller or
equal exponent is exact; a larger exponent divides the mantissa by a power
of ten under the rounding function `rnd`. -/
def rescale (d : PyDecimal) (e2 : Int) (rnd : Int → Int → Int) : PyDecimal :=
  if e2 ≤ d.e then ⟨d.m * 10 ^ (d.e - e2).toNat, e2⟩
  else ⟨rnd d.m (10 ^ (e2 - d.e).toNat), e2⟩

/-- `ROUND_HALF_EVEN`, the default decimal rounding: nearest, ties to the
even quotient. -/
def roundHalfEven (m d : Int) : Int :=
  let q := Int.fdiv m d
  let r := m - q * d
  if 2 * r < d then q
  else if 2 * r > d then q + 1
  else if q % 2 = 0 then q else q + 1

/-- The `RoundedDecimal` strategy state: `self.exp` is
`Decimal((0, (1,), -places))` when `places` is given (mantissa 1, hence
always truthy), else `None`; `self.rounding` is the optional rounding
function. -/
structure RoundedDecimalS where
  exp : Option PyDecimal
  rounding : Option (Int → Int → Int)

/-- `RoundedDecimal.__init__`. -/
def mkRoundedDecimal (places : Option Nat)
    (rounding : Option (Int → Int → Int)) : RoundedDecimalS :=
  ⟨places.map (fun p => ⟨1, -(p : Int)⟩), rounding⟩

/-- `RoundedDecimal.serialize`: `str(value.quantize(self.exp[, rounding]))`
when `self.exp` is truthy, else `str(value)`; the string is modelled by the
decimal it denotes. -/
def rdSerialize (rd : RoundedDecimalS) (v : PyDecimal) : PyDecimal :=
  match rd.exp with
  | some ex =>
      match rd.rounding with
      | some rnd => rescale v ex.e rnd
      | Option.none => rescale v ex.e roundHalfEven
  | Option.none => v

/-- `RoundedDecimal.deserialize`: `decimal.Decimal(str(value))` — parsing
the canonical string form reconstructs the same decimal. -/
def rdDeserialize (s : PyDecimal) : PyDecimal := s

/-- Boolean success test for `Except`. -/
def isOkE {ε α : Type} : Except ε α → Bool
  | .ok _ => true
  | .error _ => false

/-- The compile-and-run result of a single field's generated `from_dict`
block: look the field up in the input and run its per-field step. -/
def fieldRes (cname : String) (g : String × TypeDesc × DefaultV) (o : Opts)
    (d : DIn) : Except CompileError (Except PyErr (Option Obj)) :=
  (compileField cname g).map (fun cf => dGet d cf.fname >>= cf.step o)

/-! ### Helper lemmas -/

theorem rescale_idem (d : PyDecimal) (e2 : Int) (rnd : Int → Int → Int) :
    rescale (rescale d e2 rnd) e2 rnd = rescale d e2 rnd := by
  unfold rescale
  split <;> simp

theorem countGlobal_append (r : String) (l1 l2 : List (Nat × GenLine)) :
    countGlobal r (l1 ++ l2) = countGlobal r l1 + countGlobal r l2 := by
  induction l1 with
  | nil => simp [countGlobal]
  | cons hd tl ih =>
      obtain ⟨n, g⟩ := hd
      cases g <;> simp [countGlobal, ih] <;> omega

theorem countGuard_append (m : String) (l1 l2 : List (Nat × GenLine)) :
    countGuard m (l1 ++ l2) = countGuard m l1 + countGuard m l2 := by
  induction l1 with
  | nil => simp [countGuard]
  | cons hd tl ih =>
      obtain ⟨n, g⟩ := hd
      cases g <;> simp [countGuard, ih] <;> omega

theorem ensure_mem_modules (b : CB) (m : String) :
    m ∈ (ensureModuleImported b m).modules := by
  simp only [ensureModuleImported, addLine]
  split_ifs with h1 h2 <;> simp_all

theorem ensure_of_mem (b : CB) (m : String) (h : m ∈ b.modules) :
    ensureModuleImported b m = b := by
  simp [ensureModuleImported, h]

theorem countGlobal_ensure_le (b : CB) (m r : String) :
    countGlobal r (ensureModuleImported b m).lines ≤
      countGlobal r b.lines + 1 := by
  simp only [ensureModuleImported, addLine]
  split_ifs with h1 h2
  · omega
  · simp [countGlobal_append, countGlobal]
  · simp [countGlobal_append, countGlobal]
    split_ifs <;> omega

theorem countGuard_ensure_le (b : CB) (m r : String) :
    countGuard r (ensureModuleImported b m).lines ≤
      countGuard r b.lines + 1 := by
  simp only [ensureModuleImported, addLine]
  split_ifs with h1 h2
  · omega
  · simp [countGuard_append, countGuard]
    split_ifs <;> omega
  · simp [countGuard_append, countGuard]
    split_ifs <;> omega

theorem countGlobal_ensure_of_mem (b : CB) (m r : String) (h : r ∈ b.globs) :
    countGlobal r (ensureModuleImported b m).lines =
      countGlobal r b.lines := by
  simp only [ensureModuleImported, addLine]
  split_ifs with h1 h2
  · rfl
  · simp [countGlobal_append, countGlobal]
  · have hne : ¬(rootOf m = r) := fun e => h2 (by rw [e]; exact h)
    simp [countGlobal_append, countGlobal, hne]

theorem ensure_root_mem (b : CB) (m : String) (h : m ∉ b.modules) :
    rootOf m ∈ (ensureModuleImported b m).globs := by
  simp only [ensureModuleImported, addLine, if_neg h]
  split_ifs with h2
  · simpa using h2
  · simp

/-! ### Claim theorems -/

/-- Claim C10: for `RoundedDecimal` with `places=None`, `deserialize` is a
left inverse of `serialize`; with `places` set,
`serialize ∘ deserialize ∘ serialize = serialize` — quantization makes the
pair idempotent after one round, for any rounding mode. -/
theorem c10_rounded_decimal_roundtrip :
    ∀ (v : PyDecimal) (rnd : Option (Int → Int → Int)),
      rdDeserialize (rdSerialize (mkRoundedDecimal Option.none rnd) v) = v ∧
      ∀ p : Nat,
        rdSerialize (mkRoundedDecimal (some p) rnd)
            (rdDeserialize (rdSerialize (mkRoundedDecimal (some p) rnd) v)) =
          rdSerialize (mkRoundedDecimal (some p) rnd) v := by
  intro v rnd
  refine ⟨rfl, fun p => ?_⟩
  cases rnd <;> simp [mkRoundedDecimal, rdSerialize, rdDeserialize, rescale_idem]

/-- Claim C9: a field key present with value `None` binds `None` without
applying the decode expression and without raising, whatever the field's
declared type — and a concrete non-optional `int` field of a record decodes
`{"x": None}` to an instance holding `None`. -/
theorem c9_null_binds_none :
    (∀ (cname f : String) (t : TypeDesc) (dflt : DefaultV) (o : Opts),
      (compileField cname (f, t, dflt)).map
          (fun cf => cf.step o (some Obj.none)) =
        (compileField cname (f, t, dflt)).map
          (fun _ => Except.ok (some Obj.none))) ∧
    (buildFromDict "A" [("x", .tInt, .missing)]).map
        (fun F => F defOpts (.dict [("x", Obj.none)])) =
      .ok (.ok (.inst "A" [("x", Obj.none)])) := by
  refine ⟨fun cname f t dflt o => ?_, rfl⟩
  cases h : unpackExpr f t cname <;>
    simp [compileField, h, fieldStep, Except.map]

/-- Claim C1 (code bug): for the record type `A` with the single field
`xs : List[Optional[int]]` — a supported descriptor, `to_dict` compiles —
the valid instance `A(xs=[None])` makes the compiled `to_dict` raise
`TypeError`: the generated encode expression for a nested `Optional` applies
the inner encoder (`int(value)`) with no `None` guard, so
`from_dict(to_dict(v)) == v` cannot hold. -/
theorem c1_nested_optional_encode_raises :
    (buildToDict "A" [("xs", .tListT (.tUnion [.tInt, .tNoneT]), .missing)]).map
        (fun f => f defOpts (.inst "A" [("xs", .list [Obj.none])])) =
      .ok (.error (.typeError "int() argument is not a number or string")) :=
  rfl

/-- Claim C4 (counterexample): compiling the encoder of a field whose
declared type is a free type variable raises `UnserializableDataError`,
which names neither the offending field, nor its declared type, nor the
owning record type. -/
theorem c4_counterexample_typevar_error_names_nothing :
    packExpr "x" .tTypeVar "Owner" =
      .error (.unserializableData "TypeVars are not supported by mashumaro") ∧
    CompileError.namesField
        (.unserializableData "TypeVars are not supported by mashumaro") =
      false :=
  ⟨rfl, rfl⟩

/-- Claim C4 (amended): at compile time, in both conversion routines, bare
unparametrized container types raise `UnserializableField` naming the field,
its declared type and the owner, while free type variables, `AnyStr`,
two-arm non-`Optional` unions and unions of more than two arms raise
`UnserializableDataError` carrying only a message; a record type owning such
a field fails to compile at definition time. -/
theorem c4_amended_unserializable_shapes :
    ∀ (f p : String) (a b c : TypeDesc) (rest : List TypeDesc) (d : DefaultV),
      (packExpr f .tTypeVar p =
          .error (.unserializableData
            "TypeVars are not supported by mashumaro") ∧
        unpackExpr f .tTypeVar p =
          .error (.unserializableData
            "TypeVars are not supported by mashumaro")) ∧
      (packExpr f .tAnyStr p =
          .error (.unserializableData
            "AnyStr is not supported by mashumaro") ∧
        unpackExpr f .tAnyStr p =
          .error (.unserializableData
            "AnyStr is not supported by mashumaro")) ∧
      (b ≠ .tNoneT →
        packExpr f (.tUnion [a, b]) p =
            .error (.unserializableData
              "Unions are not supported by mashumaro") ∧
          unpackExpr f (.tUnion [a, b]) p =
            .error (.unserializableData
              "Unions are not supported by mashumaro")) ∧
      (packExpr f (.tUnion (a :: b :: c :: rest)) p =
          .error (.unserializableData
            "Unions are not supported by mashumaro") ∧
        unpackExpr f (.tUnion (a :: b :: c :: rest)) p =
          .error (.unserializableData
            "Unions are not supported by mashumaro")) ∧
      (packExpr f .bareList p = .error (.unserializableField f "list" p
          (some "Use typing.List[T] instead")) ∧
        unpackExpr f .bareList p = .error (.unserializableField f "list" p
          (some "Use typing.List[T] instead")) ∧
        packExpr f .bareDict p = .error (.unserializableField f "dict" p
          (some "Use typing.Dict[KT,VT] or Mapping[KT,VT] instead")) ∧
        unpackExpr f .bareDict p = .error (.unserializableField f "dict" p
          (some "Use typing.Dict[KT,VT] or Mapping[KT,VT] instead")) ∧
        packExpr f .bareSet p = .error (.unserializableField f "set" p
          (some "Use typing.Set[T] instead")) ∧
        unpackExpr f .bareSet p = .error (.unserializableField f "set" p
          (some "Use typing.Set[T] instead")) ∧
        packExpr f .bareFrozenset p = .error (.unserializableField f
          "frozenset" p (some "Use typing.FrozenSet[T] instead")) ∧
        unpackExpr f .bareFrozenset p = .error (.unserializableField f
          "frozenset" p (some "Use typing.FrozenSet[T] instead")) ∧
        packExpr f .bareTuple p = .error (.unserializableField f "tuple" p
          (some "Use typing.Tuple[T] instead")) ∧
        unpackExpr f .bareTuple p = .error (.unserializableField f "tuple" p
          (some "Use typing.Tuple[T] instead")) ∧
        packExpr f .bareDeque p = .error (.unserializableField f
          "collections.deque" p (some "Use typing.Deque[T] instead")) ∧
        unpackExpr f .bareDeque p = .error (.unserializableField f
          "collections.deque" p (some "Use typing.Deque[T] instead")) ∧
        packExpr f .bareChainMap p = .error (.unserializableField f
          "collections.ChainMap" p (some "Use typing.ChainMap[KT,VT] instead")) ∧
        unpackExpr f .bareChainMap p = .error (.unserializableField f
          "collections.ChainMap" p (some "Use typing.ChainMap[KT,VT] instead"))) ∧
      (buildToDict p [(f, .tTypeVar, d)] =
          .error (.unserializableData
            "TypeVars are not supported by mashumaro") ∧
        buildFromDict p [(f, .tTypeVar, d)] =
          .error (.unserializableData
            "TypeVars are not supported by mashumaro")) := by
  intro f p a b c rest d
  refine ⟨⟨rfl, rfl⟩, ⟨rfl, rfl⟩, fun hb => ?_, ⟨?_, ?_⟩,
    ⟨rfl, rfl, rfl, rfl, rfl, rfl, rfl, rfl, rfl, rfl, rfl, rfl, rfl, rfl⟩,
    ⟨rfl, rfl⟩⟩
  · cases b <;> first | exact absurd rfl hb | exact ⟨rfl, rfl⟩
  · cases b <;> rfl
  · cases b <;> rfl

/-- Claim C4 witness: the amended statement applied at a concrete two-arm
non-`Optional` union, its hypothesis discharged. -/
theorem c4_amended_witness :
    (TypeDesc.tStr ≠ TypeDesc.tNoneT) ∧
    packExpr "x" (.tUnion [.tInt, .tStr]) "Owner" =
      .error (.unserializableData "Unions are not supported by mashumaro") :=
  ⟨(fun h => nomatch h),
    ((c4_amended_unserializable_shapes "x" "Owner" .tInt .tStr .tBool []
      .missing).2.2.1 (fun h => nomatch h)).1⟩

/-- Claim C5 (counterexample): a non-`dict` input object that supports
`.get` lookup is decoded without any error — `from_dict` returns an
instance instead of failing with the argument-shape `ValueError`. -/
theorem c5_counterexample_nondict_with_get_decodes :
    (buildFromDict "S1" [("x", .tInt, .missing)]).map
        (fun F => F defOpts (.objWithGet [("x", .int 1)])) =
      .ok (.ok (.inst "S1" [("x", .int 1)])) ∧
    (Except.ok (Obj.inst "S1" [("x", .int 1)]) : Except PyErr Obj) ≠
      .error (.valueError
        "Argument for S1.from_dict method should be a dict instance") :=
  ⟨rfl, fun h => nomatch h⟩

/-- Claim C5 (amended): when the field lookup raises `AttributeError` —
in particular whenever the input has no `.get` method and the record has at
least one field — `from_dict` fails with a `ValueError` naming the target
record type, and never returns a partially constructed instance. -/
theorem c5_amended_no_get_raises_valueerror :
    ∀ (cname : String) (fields : List (String × TypeDesc × DefaultV))
      (o : Opts),
      fields ≠ [] →
      isOkE (buildFromDict cname fields) = true →
      (buildFromDict cname fields).map (fun F => F o DIn.objNoGet) =
        .ok (.error (.valueError ("Argument for " ++ cname ++
          ".from_dict method should be a dict instance"))) := by
  intro cname fields o hne hok
  match fields, hne with
  | fld :: rest, _ =>
    have hcons : unpackFields cname (fld :: rest) =
        (compileField cname fld).bind (fun cf =>
          (unpackFields cname rest).bind (fun cfs => .ok (cf :: cfs))) := rfl
    cases h2 : compileField cname fld with
    | error e =>
        rw [buildFromDict, hcons, h2] at hok
        exact absurd hok (by simp [isOkE, Except.map, Except.bind])
    | ok cf =>
        cases h3 : unpackFields cname rest with
        | error e =>
            rw [buildFromDict, hcons, h2, h3] at hok
            exact absurd hok (by simp [isOkE, Except.map, Except.bind])
        | ok cfs =>
            rw [buildFromDict, hcons, h2, h3]
            rfl

/-- Claim C5 witness: the amended statement applied to a concrete one-field
record type, both hypotheses discharged. -/
theorem c5_amended_witness :
    ([(("x" : String), TypeDesc.tInt, DefaultV.missing)] ≠ []) ∧
    isOkE (buildFromDict "S1" [("x", .tInt, .missing)]) = true ∧
    (buildFromDict "S1" [("x", .tInt, .missing)]).map
        (fun F => F defOpts DIn.objNoGet) =
      .ok (.error (.valueError
        "Argument for S1.from_dict method should be a dict instance")) :=
  ⟨(fun h => nomatch h), rfl,
    c5_amended_no_get_raises_valueerror "S1" [("x", .tInt, .missing)] defOpts
      (fun h => nomatch h) rfl⟩

/-- Claim C3: a present, non-`None` field value whose decode expression
raises is re-raised as `InvalidFieldValue` carrying the field name, the
expected type, the offending raw value and the owning record type, with the
original exception chained as its context rather than discarded. -/
theorem c3_decode_failure_wrapped :
    ∀ (cname f : String) (t : TypeDesc) (dflt : DefaultV)
      (dec : Opts → Obj → Except PyErr Obj) (o : Opts) (raw : Obj) (e : PyErr),
      unpackExpr f t cname = .ok dec →
      raw ≠ Obj.none →
      dec o raw = .error e →
      (compileField cname (f, t, dflt)).map
          (fun cf => cf.step o (some raw)) =
        .ok (.error (.invalidFieldValue f (typeName t) raw cname (some e))) := by
  intro cname f t dflt dec o raw e hdec hraw hde
  simp only [compileField, hdec, Except.map]
  cases raw <;> first
    | exact absurd rfl hraw
    | simp [fieldStep, hde]

/-- Claim C3 witness: a concrete `datetime` field decoding an unparsable
value; the inner `ValueError` appears as the chained context of the raised
`InvalidFieldValue`. -/
theorem c3_witness :
    (compileField "A" ("x", .tDatetime, .missing)).map
        (fun cf => cf.step defOpts (some (.str "oops"))) =
      .ok (.error (.invalidFieldValue "x" "datetime.datetime" (.str "oops") "A"
        (some (.valueError "Invalid isoformat string")))) :=
  c3_decode_failure_wrapped "A" "x" .tDatetime .missing _ defOpts (.str "oops")
    (.valueError "Invalid isoformat string") rfl (fun h => nomatch h) rfl

/-- Claim C8: registering a module for the generated code is idempotent —
a second call with the same name changes nothing (so the import-guard lines
are added at most once), and two registrations of modules sharing a root add
the `global` declaration for that root at most once. -/
theorem c8_ensure_module_imported_idempotent :
    ∀ (b : CB) (m1 m2 : String),
      ensureModuleImported (ensureModuleImported b m1) m1 =
        ensureModuleImported b m1 ∧
      countGuard m1
          (ensureModuleImported (ensureModuleImported b m1) m1).lines ≤
        countGuard m1 b.lines + 1 ∧
      (rootOf m1 = rootOf m2 →
        countGlobal (rootOf m1)
            (ensureModuleImported (ensureModuleImported b m1) m2).lines ≤
          countGlobal (rootOf m1) b.lines + 1) := by
  intro b m1 m2
  have hidem := ensure_of_mem _ _ (ensure_mem_modules b m1)
  refine ⟨hidem, ?_, fun hroot => ?_⟩
  · rw [hidem]
    exact countGuard_ensure_le b m1 m1
  · by_cases h1 : m1 ∈ b.modules
    · rw [ensure_of_mem b m1 h1]
      exact countGlobal_ensure_le b m2 (rootOf m1)
    · have hg : rootOf m1 ∈ (ensureModuleImported b m1).globs :=
        ensure_root_mem b m1 h1
      have h2 := countGlobal_ensure_of_mem (ensureModuleImported b m1) m2
        (rootOf m1) hg
      have h3 := countGlobal_ensure_le b m1 (rootOf m1)
      omega

theorem exBind_ok {ε α β : Type} (a : α) (f : α → Except ε β) :
    Except.bind (Except.ok a : Except ε α) f = f a := rfl

theorem exBind_err {ε α β : Type} (e : ε) (f : α → Except ε β) :
    Except.bind (Except.error e : Except ε α) f = Except.error e := rfl

theorem exBindM_ok {ε α β : Type} (a : α) (f : α → Except ε β) :
    (Except.ok a : Except ε α) >>= f = f a := rfl

theorem exBindM_err {ε α β : Type} (e : ε) (f : α → Except ε β) :
    (Except.error e : Except ε α) >>= f = Except.error e := rfl

theorem exMap_ok {ε α β : Type} (a : α) (f : α → β) :
    (Except.ok a : Except ε α).map f = Except.ok (f a) := rfl

theorem exMap_err {ε α β : Type} (e : ε) (f : α → β) :
    (Except.error e : Except ε α).map f = Except.error e := rfl

theorem lookupA_append {α : Type} (a b : List (String × α)) (n : String) :
    lookupA (a ++ b) n =
      match lookupA a n with
      | some v => some v
      | Option.none => lookupA b n := by
  induction a with
  | nil => rfl
  | cons hd tl ih =>
      obtain ⟨k, v⟩ := hd
      by_cases h : k = n <;> simp [lookupA, h, ih]

theorem lookupA_none_of_names {α : Type} (l : List (String × α)) (n : String)
    (h : ∀ p ∈ l, p.1 ≠ n) : lookupA l n = Option.none := by
  induction l with
  | nil => rfl
  | cons hd tl ih =>
      obtain ⟨k, v⟩ := hd
      have hk : k ≠ n := h (k, v) (List.mem_cons_self _ _)
      simp [lookupA, hk]
      exact ih (fun p hp => h p (List.mem_cons_of_mem _ hp))

theorem unpackFields_cons (cname : String)
    (fld : String × TypeDesc × DefaultV)
    (rest : List (String × TypeDesc × DefaultV)) :
    unpackFields cname (fld :: rest) =
      (compileField cname fld).bind (fun cf =>
        (unpackFields cname rest).bind (fun cfs => .ok (cf :: cfs))) := rfl

theorem unpackFields_append (cname : String)
    (xs ys : List (String × TypeDesc × DefaultV)) :
    unpackFields cname (xs ++ ys) =
      (unpackFields cname xs).bind (fun a =>
        (unpackFields cname ys).map (fun b => a ++ b)) := by
  induction xs with
  | nil =>
      cases h : unpackFields cname ys <;>
        simp [unpackFields, h, exBind_ok, exBind_err, exBindM_ok, exBindM_err, Except.map]
  | cons g gs ih =>
      simp only [List.cons_append, unpackFields_cons, ih]
      cases h1 : compileField cname g <;>
        simp only [exBind_ok, exBind_err, exBindM_ok, exBindM_err]
      cases h2 : unpackFields cname gs <;>
        simp only [exBind_ok, exBind_err, exBindM_ok, exBindM_err] <;>
      cases h3 : unpackFields cname ys <;>
        simp [exBind_ok, exBind_err, exBindM_ok, exBindM_err, exMap_ok, exMap_err]

theorem compileField_shape (cname f : String) (t : TypeDesc) (dflt : DefaultV)
    (cf : CF) (h : compileField cname (f, t, dflt) = .ok cf) :
    ∃ dec, unpackExpr f t cname = .ok dec ∧
      cf = ⟨f, dflt,
        fun o v? => fieldStep f (typeName t) cname dflt dec o v?⟩ := by
  unfold compileField at h
  cases hd : unpackExpr f t cname with
  | error e => rw [hd] at h; exact absurd h (by simp [Except.map])
  | ok dec =>
      rw [hd] at h
      simp only [exMap_ok] at h
      exact ⟨dec, rfl, (Except.ok.inj h).symm⟩

theorem fieldStep_missing_some (f tn cname : String)
    (dec : Opts → Obj → Except PyErr Obj) (o : Opts) (v? : Option Obj)
    (r : Option Obj)
    (h : fieldStep f tn cname .missing dec o v? = .ok r) :
    ∃ v, r = some v := by
  unfold fieldStep at h
  split at h
  · exact ⟨Obj.none, (Except.ok.inj h).symm⟩
  · exact absurd h (by simp)
  · split at h
    · exact ⟨_, (Except.ok.inj h).symm⟩
    · exact absurd h (by simp)

theorem fieldStep_default_absent (f tn cname : String)
    (dec : Opts → Obj → Except PyErr Obj) (o : Opts) (dflt : DefaultV)
    (hd : dflt ≠ DefaultV.missing) :
    fieldStep f tn cname dflt dec o Option.none = .ok Option.none := by
  unfold fieldStep
  cases dflt <;> first | exact absurd rfl hd | rfl

theorem fromDictGuard_not_attr {α : Type} (cname : String) (d : DIn)
    (e : PyErr) (h : e ≠ PyErr.attributeError) :
    fromDictGuard (α := α) cname d (.error e) = .error e := by
  cases e <;> first | exact absurd rfl h | rfl

theorem runFields_cons (cf : CF) (rest : List CF) (o : Opts) (d : DIn) :
    runFields (cf :: rest) o d =
      (dGet d cf.fname) >>= (fun v? => cf.step o v? >>= (fun r? =>
        (runFields rest o d) >>= (fun tail =>
          .ok (consEntry cf.fname r? tail)))) := rfl

theorem runFields_append (xs ys : List CF) (o : Opts) (d : DIn) :
    runFields (xs ++ ys) o d =
      (runFields xs o d).bind (fun a =>
        (runFields ys o d).map (fun b => a ++ b)) := by
  induction xs with
  | nil =>
      cases h : runFields ys o d <;>
        simp [runFields, h, exBind_ok, exBind_err, exBindM_ok, exBindM_err, Except.map]
  | cons cf xs ih =>
      simp only [List.cons_append, runFields_cons, ih]
      cases h1 : dGet d cf.fname <;>
        simp only [exBind_ok, exBind_err, exBindM_ok, exBindM_err]
      cases h2 : cf.step o ‹Option Obj› <;>
        simp only [exBind_ok, exBind_err, exBindM_ok, exBindM_err]
      cases h3 : runFields xs o d <;>
        simp only [exBind_ok, exBind_err, exBindM_ok, exBindM_err] <;>
      cases h4 : runFields ys o d <;>
        simp [exBind_ok, exBind_err, exBindM_ok, exBindM_err, exMap_ok, exMap_err, consEntry] <;>
      cases ‹Option Obj› <;> simp [consEntry]

/-- Compiling a field list and running the resulting steps: when every
field's block succeeds on the given input, the loop returns `kwargs` binding
no name outside the fields, and binding every required (no-default) field. -/
theorem runFields_of_unpackOk (cname : String) (o : Opts)
    (kvs : List (String × Obj)) :
    ∀ (gs : List (String × TypeDesc × DefaultV)) (steps : List CF),
      unpackFields cname gs = .ok steps →
      (∀ g ∈ gs, ∃ r, fieldRes cname g o (.dict kvs) = .ok (.ok r)) →
      ∃ kw, runFields steps o (.dict kvs) = .ok kw ∧
        (∀ n, (∀ g ∈ gs, g.1 ≠ n) → lookupA kw n = Option.none) ∧
        (∀ g ∈ gs, g.2.2 = DefaultV.missing →
          lookupA kw g.1 ≠ Option.none) := by
  intro gs
  induction gs with
  | nil =>
      intro steps h _
      have hs : steps = [] := (Except.ok.inj h).symm
      subst hs
      exact ⟨[], rfl, fun n _ => rfl, fun g hg => absurd hg (List.not_mem_nil g)⟩
  | cons g gs ih =>
      intro steps h hsucc
      rw [unpackFields_cons] at h
      cases h4 : compileField cname g with
      | error e => rw [h4] at h; exact absurd h (by simp [exBind_err])
      | ok cf =>
          rw [h4, exBind_ok] at h
          cases h5 : unpackFields cname gs with
          | error e => rw [h5] at h; exact absurd h (by simp [exBind_err])
          | ok cfs =>
              rw [h5, exBind_ok] at h
              have hsteps : steps = cf :: cfs := (Except.ok.inj h).symm
              subst hsteps
              obtain ⟨r, hr⟩ := hsucc g (List.mem_cons_self g gs)
              rw [fieldRes, h4, exMap_ok] at hr
              have hstep : cf.step o (lookupA kvs cf.fname) = .ok r := by
                have : dGet (.dict kvs) cf.fname = .ok (lookupA kvs cf.fname) :=
                  rfl
                rw [this, exBindM_ok] at hr
                exact Except.ok.inj hr
              obtain ⟨kw, hkw, habs, hmiss⟩ :=
                ih cfs h5 (fun g2 hg2 => hsucc g2 (List.mem_cons_of_mem _ hg2))
              obtain ⟨g1, g2⟩ := g
              obtain ⟨gt, gd⟩ := g2
              obtain ⟨dec, hdec, hcf⟩ := compileField_shape cname g1 gt gd cf h4
              refine ⟨consEntry cf.fname r kw, ?_, ?_, ?_⟩
              · have hdg : dGet (.dict kvs) cf.fname =
                    .ok (lookupA kvs cf.fname) := rfl
                simp only [runFields_cons, hdg, exBindM_ok, hstep, hkw]
              · intro n hn
                have hfn : cf.fname = g1 := by rw [hcf]
                have hg1 : g1 ≠ n := hn (g1, gt, gd) (List.mem_cons_self _ _)
                cases r with
                | none => exact habs n (fun g2 hg2 =>
                    hn g2 (List.mem_cons_of_mem _ hg2))
                | some v =>
                    simp only [consEntry, hfn, lookupA, if_neg hg1]
                    exact habs n (fun g2 hg2 =>
                      hn g2 (List.mem_cons_of_mem _ hg2))
              · intro g3 hg3 hgm
                rcases List.mem_cons.mp hg3 with hEq | hMem
                · subst hEq
                  have hgd : gd = DefaultV.missing := hgm
                  subst hgd
                  have hstepf : fieldStep g1 (typeName gt) cname
                      DefaultV.missing dec o (lookupA kvs g1) = .ok r := by
                    rw [hcf] at hstep
                    exact hstep
                  obtain ⟨v, hv⟩ := fieldStep_missing_some _ _ _ _ _ _ _ hstepf
                  subst hv
                  have hfn : cf.fname = g1 := by rw [hcf]
                  simp [consEntry, hfn, lookupA]
                · have := hmiss g3 hMem hgm
                  cases r with
                  | none => exact this
                  | some v =>
                      by_cases heq : cf.fname = g3.1
                      · simp [consEntry, heq, lookupA]
                      · simp only [consEntry, lookupA, if_neg heq]
                        exact this

theorem runFields_cons_compute (f tn cname : String) (dflt : DefaultV)
    (dec : Opts → Obj → Except PyErr Obj) (postS : List CF) (o : Opts)
    (kvs : List (String × Obj)) :
    runFields
        ((⟨f, dflt, fun o v? => fieldStep f tn cname dflt dec o v?⟩ : CF)
          :: postS) o (.dict kvs) =
      (fieldStep f tn cname dflt dec o (lookupA kvs f)) >>= (fun r? =>
        (runFields postS o (.dict kvs)) >>= (fun tail =>
          .ok (consEntry f r? tail))) := rfl

theorem runFields_cons_missing_absent (f tn cname : String)
    (dec : Opts → Obj → Except PyErr Obj) (postS : List CF) (o : Opts)
    (kvs : List (String × Obj)) (hlk : lookupA kvs f = Option.none) :
    runFields
        ((⟨f, .missing, fun o v? => fieldStep f tn cname .missing dec o v?⟩ :
          CF) :: postS) o (.dict kvs) =
      .error (.missingField f tn cname) := by
  rw [runFields_cons_compute, hlk]
  rfl

theorem runFields_cons_default_absent (f tn cname : String) (dflt : DefaultV)
    (hne : dflt ≠ DefaultV.missing) (dec : Opts → Obj → Except PyErr Obj)
    (postS : List CF) (o : Opts) (kvs : List (String × Obj))
    (hlk : lookupA kvs f = Option.none) :
    runFields
        ((⟨f, dflt, fun o v? => fieldStep f tn cname dflt dec o v?⟩ : CF)
          :: postS) o (.dict kvs) =
      runFields postS o (.dict kvs) := by
  rw [runFields_cons_compute, hlk,
    fieldStep_default_absent f tn cname dec o dflt hne, exBindM_ok]
  cases h : runFields postS o (.dict kvs) <;>
    simp [exBindM_ok, exBindM_err, consEntry]

theorem fromDictSem_error (cname : String)
    (fields : List (String × TypeDesc × DefaultV)) (steps : List CF)
    (o : Opts) (d : DIn) (e : PyErr) (h : runFields steps o d = .error e)
    (hne : e ≠ PyErr.attributeError) :
    fromDictSem cname fields steps o d = .error e := by
  unfold fromDictSem
  rw [h, fromDictGuard_not_attr _ _ _ hne]

theorem fromDictSem_ok (cname : String)
    (fields : List (String × TypeDesc × DefaultV)) (steps : List CF)
    (o : Opts) (d : DIn) (kw : List (String × Obj))
    (h : runFields steps o d = .ok kw) :
    fromDictSem cname fields steps o d = mkInstance cname fields kw := by
  unfold fromDictSem
  rw [h]
  rfl

theorem mkInstFields_cons (kw : List (String × Obj)) (f : String)
    (t : TypeDesc) (dflt : DefaultV)
    (rest : List (String × TypeDesc × DefaultV)) :
    mkInstFields kw ((f, t, dflt) :: rest) =
      (kwEntry kw f dflt) >>= (fun v =>
        (mkInstFields kw rest) >>= (fun tail => .ok ((f, v) :: tail))) := rfl

theorem kwEntry_some (kw : List (String × Obj)) (f : String) (dflt : DefaultV)
    (v : Obj) (h : lookupA kw f = some v) : kwEntry kw f dflt = .ok v := by
  unfold kwEntry
  rw [h]

theorem kwEntry_none (kw : List (String × Obj)) (f : String) (dflt : DefaultV)
    (h : lookupA kw f = Option.none) : kwEntry kw f dflt = ctorDefault f dflt := by
  unfold kwEntry
  rw [h]

theorem mkInstFields_append (kw : List (String × Obj))
    (xs ys : List (String × TypeDesc × DefaultV)) :
    mkInstFields kw (xs ++ ys) =
      (mkInstFields kw xs).bind (fun a =>
        (mkInstFields kw ys).map (fun b => a ++ b)) := by
  induction xs with
  | nil =>
      cases h : mkInstFields kw ys <;>
        simp [mkInstFields, h, exBind_ok, exBind_err, Except.map]
  | cons g gs ih =>
      obtain ⟨f, t, dflt⟩ := g
      simp only [List.cons_append, mkInstFields_cons, ih]
      cases hke : kwEntry kw f dflt <;>
        simp only [exBind_ok, exBind_err, exBindM_ok, exBindM_err]
      cases h2 : mkInstFields kw gs <;>
        simp only [exBind_ok, exBind_err, exBindM_ok, exBindM_err] <;>
      cases h3 : mkInstFields kw ys <;>
        simp [exBind_ok, exBind_err, exBindM_ok, exBindM_err,
          exMap_ok, exMap_err]

theorem mkInstFields_ok (kw : List (String × Obj)) :
    ∀ fields : List (String × TypeDesc × DefaultV),
      (∀ g ∈ fields, g.2.2 = DefaultV.missing →
        lookupA kw g.1 ≠ Option.none) →
      ∃ flds, mkInstFields kw fields = .ok flds ∧
        flds.map Prod.fst = fields.map Prod.fst := by
  intro fields
  induction fields with
  | nil => intro _; exact ⟨[], rfl, rfl⟩
  | cons g gs ih =>
      intro h
      obtain ⟨f, t, dflt⟩ := g
      obtain ⟨b, hb, hnames⟩ :=
        ih (fun g2 hg2 => h g2 (List.mem_cons_of_mem _ hg2))
      cases hlk : lookupA kw f with
      | some v =>
          refine ⟨(f, v) :: b, ?_, ?_⟩
          · rw [mkInstFields_cons, kwEntry_some kw f dflt v hlk, exBindM_ok,
              hb, exBindM_ok]
          · simp [hnames]
      | none =>
          cases dflt with
          | missing =>
              exact absurd hlk (h (f, t, .missing)
                (List.mem_cons_self _ _) rfl)
          | val v =>
              refine ⟨(f, v) :: b, ?_, ?_⟩
              · rw [mkInstFields_cons, kwEntry_none kw f _ hlk]
                rw [show ctorDefault f (DefaultV.val v) = .ok v from rfl,
                  exBindM_ok, hb, exBindM_ok]
              · simp [hnames]
          | factory v =>
              refine ⟨(f, v) :: b, ?_, ?_⟩
              · rw [mkInstFields_cons, kwEntry_none kw f _ hlk]
                rw [show ctorDefault f (DefaultV.factory v) = .ok v from rfl,
                  exBindM_ok, hb, exBindM_ok]
              · simp [hnames]

theorem lookupA_setk_self {α : Type} (m : List (String × α)) (k : String)
    (v : α) : lookupA (setk m k v) k = some v := by
  induction m with
  | nil => simp [setk, lookupA]
  | cons hd tl ih =>
      obtain ⟨k0, v0⟩ := hd
      by_cases h : k0 = k <;> simp [setk, lookupA, h, ih]

theorem lookupA_setk_ne {α : Type} (m : List (String × α)) (k0 k : String)
    (v : α) (h : k0 ≠ k) : lookupA (setk m k0 v) k = lookupA m k := by
  induction m with
  | nil => simp [setk, lookupA, h]
  | cons hd tl ih =>
      obtain ⟨k1, v1⟩ := hd
      by_cases h1 : k1 = k0
      · subst h1
        simp [setk, lookupA, h]
      · by_cases h2 : k1 = k
        · subst h2
          simp [setk, lookupA, h1]
        · simp [setk, lookupA, h1, h2, ih]

theorem lookupA_fold_pairs {α β : Type} (key : β → String) (val : β → α)
    (n : String) :
    ∀ (l : List β) (m : List (String × α)), (∀ b ∈ l, key b ≠ n) →
      lookupA (l.foldl (fun acc b => setk acc (key b) (val b)) m) n =
        lookupA m n := by
  intro l
  induction l with
  | nil => intro m _; rfl
  | cons b l ih =>
      intro m hl
      simp only [List.foldl_cons]
      rw [ih _ (fun x hx => hl x (List.mem_cons_of_mem _ hx))]
      exact lookupA_setk_ne _ _ _ _ (hl b (List.mem_cons_self b l))

theorem lookupA_fold_last {α : Type} (n : String) (d : α)
    (u w : List (String × α)) (m : List (String × α))
    (hw : ∀ p ∈ w, p.1 ≠ n) :
    lookupA ((u ++ (n, d) :: w).foldl (fun acc p => setk acc p.1 p.2) m) n =
      some d := by
  rw [List.foldl_append, List.foldl_cons]
  rw [lookupA_fold_pairs Prod.fst Prod.snd n w _ hw]
  exact lookupA_setk_self _ _ _

theorem lookupA_fold_own (ns : String → NsVal) (n : String) :
    ∀ (l : List String) (m : List (String × DefaultV)), (∀ b ∈ l, b ≠ n) →
      lookupA (l.foldl (fun acc x => setk acc x (ownDefault (ns x))) m) n =
        lookupA m n := by
  intro l
  induction l with
  | nil => intro m _; rfl
  | cons b l ih =>
      intro m hl
      simp only [List.foldl_cons]
      rw [ih _ (fun x hx => hl x (List.mem_cons_of_mem _ hx))]
      exact lookupA_setk_ne _ _ _ _ (hl b (List.mem_cons_self b l))

theorem lookupA_ancs_preserve (n : String) :
    ∀ (ancs : List (Bool × List (String × DefaultV)))
      (m : List (String × DefaultV)),
      (∀ a ∈ ancs, a.1 = true → ∀ p ∈ a.2, p.1 ≠ n) →
      lookupA (ancs.foldl ancFold m) n = lookupA m n := by
  intro ancs
  induction ancs with
  | nil => intro m _; rfl
  | cons a ancs ih =>
      intro m h
      simp only [List.foldl_cons]
      rw [ih _ (fun x hx => h x (List.mem_cons_of_mem _ hx))]
      unfold ancFold
      split_ifs with ha
      · exact lookupA_fold_pairs Prod.fst Prod.snd n a.2 m
          (h a (List.mem_cons_self a ancs) ha)
      · rfl

theorem find_unique {α : Type} (p : α → Bool) (l : List α) (V : α)
    (hV : V ∈ l) (hp : p V = true)
    (hu : ∀ W ∈ l, p W = true → W = V) :
    l.find? p = some V := by
  induction l with
  | nil => cases hV
  | cons W l ih =>
      by_cases hw : p W = true
      · have hWV : W = V := hu W (List.mem_cons_self W l) hw
        subst hWV
        simp [List.find?_cons_of_pos _ hw]
      · have hWV : W ≠ V := fun e => hw (by rw [e]; exact hp)
        have hV2 : V ∈ l := by
          rcases List.mem_cons.mp hV with h | h
          · exact absurd h.symm hWV
          · exact h
        rw [List.find?_cons_of_neg _ hw]
        exact ih hV2 (fun W2 h2 hp2 => hu W2 (List.mem_cons_of_mem _ h2) hp2)

/-- The freshly reset generator state. -/
def cb0 : CB := ⟨[], [], [], 0⟩

/-- Claim C8 witness: two modules sharing the root `collections`, registered
into a fresh builder, yield at most one `global collections` line. -/
theorem c8_witness :
    rootOf "collections.abc" = rootOf "collections.deque" ∧
    countGlobal (rootOf "collections.abc")
        (ensureModuleImported (ensureModuleImported cb0 "collections.abc")
          "collections.deque").lines ≤
      countGlobal (rootOf "collections.abc") cb0.lines + 1 :=
  ⟨rfl, (c8_ensure_module_imported_idempotent cb0 "collections.abc"
    "collections.deque").2.2 rfl⟩

/-- Claim C6: in tag mode, discriminated decoding reads the tag field's raw
value from the input tree and decodes via the unique subtype whose tag value
(the literal tag, or the `variant_tagger_fn` result) equals it, with no
trial-and-error over other candidates; a tag value matching no subtype
raises `InvalidFieldValue` identifying the discriminated field. -/
theorem c6_tag_mode_dispatch :
    ∀ (owner fname : String) (ds : DiscSpec) (o : Opts) (raw t : Obj),
      objGetKey raw ds.tagField = some t →
      (∀ V : DiscVariant, V ∈ ds.variants →
        beqPrim (variantTag ds V) t = true →
        (∀ W ∈ ds.variants, beqPrim (variantTag ds W) t = true → W = V) →
        discDecodeField owner fname ds o raw =
          runClassFromDict V.cname V.fields o (treeToDIn raw)) ∧
      ((∀ W ∈ ds.variants, beqPrim (variantTag ds W) t = false) →
        discDecodeField owner fname ds o raw =
          .error (.invalidFieldValue fname "tagged union" raw owner
            Option.none)) := by
  intro owner fname ds o raw t hget
  constructor
  · intro V hV hbeq huniq
    have hfind : findVariant ds t = some V :=
      find_unique _ _ _ hV hbeq huniq
    simp [discDecodeField, hget, hfind]
  · intro hall
    have hfind : findVariant ds t = Option.none := by
      unfold findVariant
      rw [List.find?_eq_none]
      intro x hx
      simp [hall x hx]
    simp [discDecodeField, hget, hfind]

/-- Python's `str.lower` on ASCII class names. -/
def lowerStr (s : String) : String := ⟨s.data.map Char.toLower⟩

/-- The subtype set of `test_by_field_with_custom_variant_tagger`: two
field-less subtypes discriminated by `variant_tagger_fn =
lambda cls: cls.__name__.lower()`. -/
def taggerVariants : List DiscVariant :=
  [⟨"VariantWitCustomTaggerSub1", [], Obj.none⟩,
   ⟨"VariantWitCustomTaggerSub2", [], Obj.none⟩]

/-- The tag-mode discriminator of `VariantWitCustomTaggerOwner.x`. -/
def taggerDS : DiscSpec :=
  ⟨"type", taggerVariants, some (fun n => Obj.str (lowerStr n))⟩

/-- Claim C6 witness: decoding `{"type": "variantwitcustomtaggersub1"}`
selects `VariantWitCustomTaggerSub1` and yields its instance, and the
unknown tag `{"type": "unknown"}` raises `InvalidFieldValue` for the
discriminated field `x`. -/
theorem c6_witness :
    discDecodeField "VariantWitCustomTaggerOwner" "x" taggerDS defOpts
        (.dict [(.str "type", .str "variantwitcustomtaggersub1")]) =
      runClassFromDict "VariantWitCustomTaggerSub1" [] defOpts
        (treeToDIn (.dict [(.str "type", .str "variantwitcustomtaggersub1")])) ∧
    runClassFromDict "VariantWitCustomTaggerSub1" [] defOpts
        (treeToDIn (.dict [(.str "type", .str "variantwitcustomtaggersub1")])) =
      .ok (.inst "VariantWitCustomTaggerSub1" []) ∧
    discDecodeField "VariantWitCustomTaggerOwner" "x" taggerDS defOpts
        (.dict [(.str "type", .str "unknown")]) =
      .error (.invalidFieldValue "x" "tagged union"
        (.dict [(.str "type", .str "unknown")]) "VariantWitCustomTaggerOwner"
        Option.none) := by
  refine ⟨?_, rfl, ?_⟩
  · exact (c6_tag_mode_dispatch "VariantWitCustomTaggerOwner" "x" taggerDS
      defOpts (.dict [(.str "type", .str "variantwitcustomtaggersub1")])
      (.str "variantwitcustomtaggersub1") rfl).1
      ⟨"VariantWitCustomTaggerSub1", [], Obj.none⟩
      (by simp [taggerDS, taggerVariants]) (by decide)
      (by
        intro W hW hb
        simp only [taggerDS, taggerVariants, List.mem_cons,
          List.not_mem_nil, or_false] at hW
        rcases hW with h | h
        · exact h
        · rw [h] at hb
          exact absurd hb (by decide))
  · exact (c6_tag_mode_dispatch "VariantWitCustomTaggerOwner" "x" taggerDS
      defOpts (.dict [(.str "type", .str "unknown")]) (.str "unknown")
      rfl).2 (by decide)

/-- Claim C7: when a field name carries a default on both a base type and a
more derived subtype, the collected default is the subtype's declaration —
the walk over `__mro__[-1:0:-1]` visits ancestors oldest-first, so later
(more derived) declarations overwrite earlier ones.  `pre` are the ancestors
more derived than the subtype (hypothesized not to redeclare the name), the
subtype declares `(n, d2)` with no later redeclaration among its own fields,
`mid`/`post` and the base may declare `n` freely. -/
theorem c7_subtype_default_overrides_base :
    ∀ (pre mid post : List (Bool × List (String × DefaultV)))
      (u w baseFlds : List (String × DefaultV)) (own : List String)
      (ns : String → NsVal) (n : String) (d1 d2 : DefaultV),
      (n, d1) ∈ baseFlds →
      (∀ p ∈ w, p.1 ≠ n) →
      (∀ a ∈ pre, a.1 = true → ∀ p ∈ a.2, p.1 ≠ n) →
      n ∉ own →
      lookupA (defaultsMap
          (pre ++ (true, u ++ (n, d2) :: w) :: mid ++ (true, baseFlds) :: post)
          own ns) n = some d2 := by
  intro pre mid post u w baseFlds own ns n d1 d2 hbase hw hpre hown
  simp only [defaultsMap]
  rw [lookupA_fold_own ns n own _ (fun b hb e => hown (e ▸ hb))]
  rw [show (pre ++ (true, u ++ (n, d2) :: w) :: mid ++
        (true, baseFlds) :: post).reverse =
      ((post.reverse ++ (true, baseFlds) :: mid.reverse) ++
        ((true, u ++ (n, d2) :: w) :: pre.reverse : List _)) from by
    simp [List.reverse_append]]
  rw [List.foldl_append, List.foldl_cons]
  rw [lookupA_ancs_preserve n pre.reverse _
    (fun a ha => hpre a (List.mem_reverse.mp ha))]
  unfold ancFold
  simp only [if_pos rfl]
  exact lookupA_fold_last n d2 u w _ hw

/-- Claim C7 witness: a two-level chain where base and subtype both default
the field `x`; the collected default is the subtype's. -/
theorem c7_witness :
    ((("x" : String), DefaultV.val (Obj.int 1)) ∈
      [(("x" : String), DefaultV.val (Obj.int 1))]) ∧
    lookupA (defaultsMap
        [(true, [("x", DefaultV.val (Obj.int 2))]),
         (true, [("x", DefaultV.val (Obj.int 1))])]
        [] (fun _ => NsVal.absent)) "x" = some (DefaultV.val (Obj.int 2)) :=
  ⟨List.mem_singleton.mpr rfl,
    c7_subtype_default_overrides_base [] [] [] [] []
      [("x", .val (.int 1))] [] (fun _ => .absent) "x"
      (.val (.int 1)) (.val (.int 2))
      (List.mem_singleton.mpr rfl) (by simp) (by simp) (by simp)⟩

/-- Claim C2: a field absent from the input with no default and no default
factory makes `from_dict` raise `MissingField` carrying the field's name,
its declared type and the owning record type (given that the fields before
it decode successfully); a field absent from the input that has a default or
a factory raises nothing — it is omitted from `kwargs` and the constructed
instance carries the constructor-supplied default. -/
theorem c2_missing_field_and_defaults :
    ∀ (cname : String) (pre post : List (String × TypeDesc × DefaultV))
      (f : String) (t : TypeDesc) (o : Opts) (kvs : List (String × Obj)),
      lookupA kvs f = Option.none →
      ((isOkE (buildFromDict cname (pre ++ (f, t, .missing) :: post)) = true →
        (∀ g ∈ pre, ∃ r, fieldRes cname g o (.dict kvs) = .ok (.ok r)) →
        (buildFromDict cname (pre ++ (f, t, .missing) :: post)).map
            (fun F => F o (.dict kvs)) =
          .ok (.error (.missingField f (typeName t) cname))) ∧
       (∀ (dv : Obj) (dflt : DefaultV),
        dflt = DefaultV.val dv ∨ dflt = DefaultV.factory dv →
        isOkE (buildFromDict cname (pre ++ (f, t, dflt) :: post)) = true →
        (∀ g ∈ pre ++ post, ∃ r,
          fieldRes cname g o (.dict kvs) = .ok (.ok r)) →
        (∀ g ∈ pre ++ post, g.1 ≠ f) →
        ∃ flds,
          (buildFromDict cname (pre ++ (f, t, dflt) :: post)).map
              (fun F => F o (.dict kvs)) =
            .ok (.ok (.inst cname flds)) ∧
          lookupA flds f = some dv)) := by
  intro cname pre post f t o kvs hlk
  constructor
  · intro hok hpre
    cases h1 : unpackFields cname (pre ++ (f, t, .missing) :: post) with
    | error e =>
        rw [buildFromDict, h1] at hok
        simp [isOkE, Except.map] at hok
    | ok steps =>
        simp only [buildFromDict, h1, exMap_ok]
        rw [unpackFields_append] at h1
        cases h2 : unpackFields cname pre with
        | error e =>
            simp only [h2, exBind_err] at h1
            exact Except.noConfusion h1
        | ok preS =>
            simp only [h2, exBind_ok, unpackFields_cons] at h1
            cases h3 : compileField cname (f, t, .missing) with
            | error e =>
                simp only [h3, exBind_err, Except.map] at h1
                exact Except.noConfusion h1
            | ok cf0 =>
                simp only [h3, exBind_ok] at h1
                cases h5 : unpackFields cname post with
                | error e =>
                    simp only [h5, exBind_err, Except.map] at h1
                    exact Except.noConfusion h1
                | ok postS =>
                    simp only [h5, exBind_ok, exMap_ok] at h1
                    have hsteps : steps = preS ++ cf0 :: postS :=
                      (Except.ok.inj h1).symm
                    subst hsteps
                    obtain ⟨kw1, hkw1, habs1, hmiss1⟩ :=
                      runFields_of_unpackOk cname o kvs pre preS h2 hpre
                    obtain ⟨dec, hdec, hcf⟩ :=
                      compileField_shape cname f t .missing cf0 h3
                    subst hcf
                    have hrun : runFields (preS ++
                        (⟨f, .missing, fun o v? =>
                          fieldStep f (typeName t) cname .missing dec o v?⟩ :
                          CF) :: postS) o (.dict kvs) =
                        .error (.missingField f (typeName t) cname) := by
                      rw [runFields_append, hkw1, exBind_ok,
                        runFields_cons_missing_absent f (typeName t) cname
                          dec postS o kvs hlk]
                      rfl
                    rw [fromDictSem_error cname _ _ o (.dict kvs) _ hrun
                      (fun hh => nomatch hh)]
  · intro dv dflt hdflt hok hsucc hnodup
    have hne : dflt ≠ DefaultV.missing := by
      rcases hdflt with h | h <;> subst h <;> exact (fun hh => nomatch hh)
    have hctor : ctorDefault f dflt = .ok dv := by
      rcases hdflt with h | h <;> subst h <;> rfl
    cases h1 : unpackFields cname (pre ++ (f, t, dflt) :: post) with
    | error e =>
        rw [buildFromDict, h1] at hok
        simp [isOkE, Except.map] at hok
    | ok steps =>
        simp only [buildFromDict, h1, exMap_ok]
        rw [unpackFields_append] at h1
        cases h2 : unpackFields cname pre with
        | error e =>
            simp only [h2, exBind_err] at h1
            exact Except.noConfusion h1
        | ok preS =>
            simp only [h2, exBind_ok, unpackFields_cons] at h1
            cases h3 : compileField cname (f, t, dflt) with
            | error e =>
                simp only [h3, exBind_err, Except.map] at h1
                exact Except.noConfusion h1
            | ok cf0 =>
                simp only [h3, exBind_ok] at h1
                cases h5 : unpackFields cname post with
                | error e =>
                    simp only [h5, exBind_err, Except.map] at h1
                    exact Except.noConfusion h1
                | ok postS =>
                    simp only [h5, exBind_ok, exMap_ok] at h1
                    have hsteps : steps = preS ++ cf0 :: postS :=
                      (Except.ok.inj h1).symm
                    subst hsteps
                    obtain ⟨kw1, hkw1, habs1, hmiss1⟩ :=
                      runFields_of_unpackOk cname o kvs pre preS h2
                        (fun g hg => hsucc g (List.mem_append.mpr (Or.inl hg)))
                    obtain ⟨kw2, hkw2, habs2, hmiss2⟩ :=
                      runFields_of_unpackOk cname o kvs post postS h5
                        (fun g hg => hsucc g (List.mem_append.mpr (Or.inr hg)))
                    obtain ⟨dec, hdec, hcf⟩ :=
                      compileField_shape cname f t dflt cf0 h3
                    subst hcf
                    have hrun : runFields (preS ++
                        (⟨f, dflt, fun o v? =>
                          fieldStep f (typeName t) cname dflt dec o v?⟩ :
                          CF) :: postS) o (.dict kvs) = .ok (kw1 ++ kw2) := by
                      rw [runFields_append, hkw1, exBind_ok,
                        runFields_cons_default_absent f (typeName t) cname
                          dflt hne dec postS o kvs hlk, hkw2, exMap_ok]
                    have hkwmiss : ∀ g ∈ pre ++ post,
                        g.2.2 = DefaultV.missing →
                        lookupA (kw1 ++ kw2) g.1 ≠ Option.none := by
                      intro g hg hgm
                      rw [lookupA_append]
                      rcases List.mem_append.mp hg with hgp | hgp
                      · cases hx : lookupA kw1 g.1 with
                        | none => exact absurd hx (hmiss1 g hgp hgm)
                        | some v => simp
                      · cases hx : lookupA kw1 g.1 with
                        | some v => simp
                        | none => exact hmiss2 g hgp hgm
                    obtain ⟨a, ha, hnamesA⟩ := mkInstFields_ok (kw1 ++ kw2)
                      pre (fun g hg =>
                        hkwmiss g (List.mem_append.mpr (Or.inl hg)))
                    obtain ⟨b, hbk, hnamesB⟩ := mkInstFields_ok (kw1 ++ kw2)
                      post (fun g hg =>
                        hkwmiss g (List.mem_append.mpr (Or.inr hg)))
                    have hlkall : lookupA (kw1 ++ kw2) f = Option.none := by
                      rw [lookupA_append,
                        habs1 f (fun g hg =>
                          hnodup g (List.mem_append.mpr (Or.inl hg))),
                        habs2 f (fun g hg =>
                          hnodup g (List.mem_append.mpr (Or.inr hg)))]
                    refine ⟨a ++ (f, dv) :: b, ?_, ?_⟩
                    · rw [fromDictSem_ok cname _ _ o (.dict kvs) _ hrun]
                      simp only [mkInstance, mkInstFields_append, ha,
                        exBind_ok, mkInstFields_cons,
                        kwEntry_none _ _ _ hlkall, hctor, exBindM_ok, hbk,
                        exMap_ok]
                    · rw [lookupA_append]
                      have hA : lookupA a f = Option.none := by
                        apply lookupA_none_of_names
                        intro p hp
                        have hmem : p.1 ∈ a.map Prod.fst :=
                          List.mem_map_of_mem _ hp
                        rw [hnamesA] at hmem
                        obtain ⟨g, hg, hge⟩ := List.mem_map.mp hmem
                        rw [← hge]
                        exact hnodup g (List.mem_append.mpr (Or.inl hg))
                      rw [hA]
                      simp [lookupA]

/-- Claim C2 witness: decoding `{}` against a schema with the one required
field `x : str` raises `MissingField` naming `x`, `str` and the record
type; with a default of `7` instead, decoding `{}` succeeds and the
instance carries `7`. -/
theorem c2_witness :
    (buildFromDict "S" [("x", TypeDesc.tStr, DefaultV.missing)]).map
        (fun F => F defOpts (.dict [])) =
      .ok (.error (.missingField "x" "str" "S")) ∧
    ∃ flds,
      (buildFromDict "S"
          [("x", TypeDesc.tStr, DefaultV.val (Obj.int 7))]).map
          (fun F => F defOpts (.dict [])) =
        .ok (.ok (.inst "S" flds)) ∧
      lookupA flds "x" = some (Obj.int 7) :=
  ⟨(c2_missing_field_and_defaults "S" [] [] "x" .tStr defOpts [] rfl).1 rfl
      (fun g hg => absurd hg (List.not_mem_nil g)),
    (c2_missing_field_and_defaults "S" [] [] "x" .tStr defOpts [] rfl).2
      (Obj.int 7) (DefaultV.val (Obj.int 7)) (Or.inl rfl) rfl
      (fun g hg => absurd hg (List.not_mem_nil g))
      (fun g hg => absurd hg (List.not_mem_nil g))⟩

end Mashumaro
